import Mathlib

/-!
Verification development for the uncloud compose compatibility scanner,
secret resolver and cross-validator.

The Go sources embedded here:
  pkg/client/compose/warnings.go  (CheckProjectWarnings, hasUserDefinedNetworks,
                                   checkServiceWarnings, checkDeployWarnings)
  pkg/client/compose/secret.go    (secretSpecsFromCompose)
  pkg/api/secret.go               (SecretSpec.Validate, SecretMount.GetNumericUid,
                                   SecretMount.GetNumericGid, SecretMount.Validate,
                                   ValidateSecretsAndMounts)

Modelling conventions:
  * Go strings are Lean `String`; Go byte-wise string comparison coincides with
    char-wise (code point) comparison on UTF-8 data, embedded as `strLe` below.
  * Go `[]byte` payloads are `List Nat` (the byte values); `[]byte(someString)`
    is `strBytes` (UTF-8 encoding).
  * Go maps used only through key lookup/iteration are embedded as lookup
    functions (`String → Option _`) or key lists.
  * Nil-able Go pointers whose pointees are never inspected are `Option Unit`.
  * Go numeric fields that the scanner only compares against 0 keep their sign
    behaviour as `Int` (this includes the float32 fields CPUPercent and
    MaxFailureRatio, whose only use is a `> 0` test).
  * `os.ReadFile` is an explicit filesystem parameter `String → Option (List Nat)`
    (`none` = the read fails).
  * Go's platform `int` is 64-bit here (the supported targets), so the
    `int(u)` cast of a `uint64` is `intOfUint64`.
-/

namespace Uncloud

/-- UTF-8 bytes of a string, the embedding of Go `[]byte(s)`. -/
def strBytes (s : String) : List Nat :=
  (s.data.flatMap String.utf8EncodeChar).map (·.toNat)

/-- Byte-wise (≡ char-wise on UTF-8) lexicographic `≤` on char lists,
the order underlying Go `a.Key < b.Key` comparisons. -/
def charListLe : List Char → List Char → Bool
  | [], _ => true
  | _ :: _, [] => false
  | a :: as, b :: bs =>
    decide (a.toNat < b.toNat) || (decide (a.toNat = b.toNat) && charListLe as bs)

/-- Lexicographic `≤` on strings (byte-wise, as Go compares strings). -/
def strLe (a b : String) : Bool := charListLe a.data b.data

/-! ## Warning data model (pkg/client/compose/warnings.go) -/

/-- `type Warning struct { Service, Key, Message string }`. -/
structure Warning where
  service : String
  key : String
  message : String
deriving DecidableEq

/-- `types.ServiceSecretConfig` (compose-go): the fields the resolver consumes
(Source, Target, UID, GID, Mode). `Mode *uint32` is `Option Nat`. -/
structure ServiceSecretConfig where
  source : String := ""
  target : String := ""
  uid : String := ""
  gid : String := ""
  mode : Option Nat := none
deriving DecidableEq

/-- `types.PlacementPreferences` is inspected only via `len`; `Constraints []string`
is inspected via `!= nil`, so it is an `Option` (nil vs possibly-empty slice). -/
structure Placement where
  constraints : Option (List String) := none
  preferences : List String := []
deriving DecidableEq

/-- `types.UpdateConfig` fields inspected by checkDeployWarnings, plus `order`
(never inspected — claimed explicitly supported). `Parallelism *uint64` is
`Option Nat`; the durations and `MaxFailureRatio` keep only their `> 0` test
relevant value as `Int`. -/
structure UpdateConfig where
  parallelism : Option Nat := none
  delay : Int := 0
  failureAction : String := ""
  monitor : Int := 0
  maxFailureRatio : Int := 0
  order : String := ""
deriving DecidableEq

/-- `types.DeployConfig` fields inspected by checkDeployWarnings, plus
`replicas` (never inspected). Labels is a map inspected only via `len`. -/
structure DeployConfig where
  replicas : Option Int := none
  labels : List String := []
  rollbackConfig : Option Unit := none
  restartPolicy : Option Unit := none
  endpointMode : String := ""
  placement : Placement := {}
  updateConfig : Option UpdateConfig := none
deriving DecidableEq

/-- `types.ServiceConfig`: every field read by checkServiceWarnings, with the
zero value of the Go type as default. Maps/slices inspected only via `len` (or
key iteration, for networks) are key lists; nil-able pointers whose pointees
are not read are `Option Unit`. `Extends` is `extendsOpt` (Lean keyword). -/
structure ServiceConfig where
  build : Option Unit := none
  containerName : String := ""
  dependsOn : List String := []
  links : List String := []
  networks : List String := []
  networkMode : String := ""
  restart : String := ""
  secrets : List ServiceSecretConfig := []
  profiles : List String := []
  externalLinks : List String := []
  volumesFrom : List String := []
  develop : Option Unit := none
  hostname : String := ""
  dns : List String := []
  dnsOpts : List String := []
  dnsSearch : List String := []
  extraHosts : List String := []
  securityOpt : List String := []
  platform : String := ""
  workingDir : String := ""
  tmpfs : List String := []
  readOnly : Bool := false
  shmSize : Int := 0
  cpuSet : String := ""
  memSwapLimit : Int := 0
  pid : String := ""
  ipc : String := ""
  uts : String := ""
  usernsMode : String := ""
  cgroupParent : String := ""
  cgroup : String := ""
  isolation : String := ""
  runtime : String := ""
  stopSignal : String := ""
  stopGracePeriod : Option Unit := none
  macAddress : String := ""
  tty : Bool := false
  stdinOpen : Bool := false
  oomKillDisable : Bool := false
  oomScoreAdj : Int := 0
  pidsLimit : Int := 0
  storageOpt : List String := []
  deviceCgroupRules : List String := []
  credentialSpec : Option Unit := none
  groupAdd : List String := []
  blkioConfig : Option Unit := none
  cpuCount : Int := 0
  cpuPercent : Int := 0
  cpuPeriod : Int := 0
  cpuQuota : Int := 0
  cpuRTPeriod : Int := 0
  cpuRTRuntime : Int := 0
  cpuShares : Int := 0
  memSwappiness : Int := 0
  domainName : String := ""
  attach : Option Bool := none
  labels : List String := []
  annotations : List String := []
  extendsOpt : Option Unit := none
  postStart : List String := []
  preStop : List String := []
  provider : Option Unit := none
  models : List String := []
  volumeDriver : String := ""
  useAPISocket : Bool := false
  net : String := ""
  deploy : Option DeployConfig := none

/-- `types.Project` as consumed by CheckProjectWarnings: project name,
the service-name sequence `project.ServiceNames()` yields (the project's
given service order), and the `project.Services[name]` lookup (a Go map
read, total with the zero value). -/
structure Project where
  name : String := ""
  serviceNames : List String := []
  services : String → ServiceConfig := fun _ => {}

/-- `hasUserDefinedNetworks(project, service)`: false on an empty network map,
otherwise true iff some attached network name differs from both the project
name (the implicit default network) and `"default"`. -/
def hasUserDefinedNetworks (project : Project) (service : ServiceConfig) : Bool :=
  if service.networks = [] then false
  else service.networks.any fun networkName =>
    networkName ≠ project.name && networkName ≠ "default"

/-- One conditional append step of the Go scanners:
`if cond { warnings = append(warnings, w) }`. -/
def warnIf (c : Prop) [Decidable c] (w : Warning) : List Warning :=
  if c then [w] else []

/-- `checkDeployWarnings(serviceName, deploy)`: the sequential conditional
appends become a concatenation of zero/one-element lists. -/
def checkDeployWarnings (serviceName : String) (deploy : DeployConfig) : List Warning :=
  warnIf (deploy.labels ≠ []) ⟨serviceName, "deploy.labels", "\x27deploy.labels\x27 is not supported."⟩ ++
  warnIf (deploy.rollbackConfig ≠ none) ⟨serviceName, "deploy.rollback_config", "\x27deploy.rollback_config\x27 is not supported."⟩ ++
  warnIf (deploy.restartPolicy ≠ none) ⟨serviceName, "deploy.restart_policy", "\x27deploy.restart_policy\x27 is not supported. Uncloud manages container lifecycle."⟩ ++
  warnIf (deploy.endpointMode ≠ "") ⟨serviceName, "deploy.endpoint_mode", "\x27deploy.endpoint_mode\x27 is not supported."⟩ ++
  warnIf (deploy.placement.constraints ≠ none ∨ deploy.placement.preferences ≠ []) ⟨serviceName, "deploy.placement", "\x27deploy.placement\x27 is not supported. Use \x27x-machines\x27 extension for machine placement."⟩ ++
  (match deploy.updateConfig with
   | none => []
   | some updateConfig =>
     warnIf (updateConfig.parallelism ≠ none) ⟨serviceName, "deploy.update_config.parallelism", "\x27deploy.update_config.parallelism\x27 is not supported."⟩ ++
     warnIf (0 < updateConfig.delay) ⟨serviceName, "deploy.update_config.delay", "\x27deploy.update_config.delay\x27 is not supported."⟩ ++
     warnIf (updateConfig.failureAction ≠ "") ⟨serviceName, "deploy.update_config.failure_action", "\x27deploy.update_config.failure_action\x27 is not supported."⟩ ++
     warnIf (0 < updateConfig.monitor) ⟨serviceName, "deploy.update_config.monitor", "\x27deploy.update_config.monitor\x27 is not supported."⟩ ++
     warnIf (0 < updateConfig.maxFailureRatio) ⟨serviceName, "deploy.update_config.max_failure_ratio", "\x27deploy.update_config.max_failure_ratio\x27 is not supported."⟩)

/-- The warning list checkServiceWarnings accumulates before its final sort:
each `if cond { warnings = append(warnings, w) }` is one `++` summand. -/
def serviceWarningsUnsorted (project : Project) (name : String)
    (service : ServiceConfig) : List Warning :=
  warnIf (service.build ≠ none) ⟨name, "build", "\x27build\x27 is not supported. Pre-build images and specify \x27image\x27 instead."⟩ ++
  warnIf (service.containerName ≠ "") ⟨name, "container_name", "\x27container_name\x27 is not supported. Uncloud generates container names automatically."⟩ ++
  warnIf (service.dependsOn ≠ [] ∧ service.links = []) ⟨name, "depends_on", "\x27depends_on\x27 is not supported. Services start independently."⟩ ++
  warnIf (service.networks ≠ [] ∧ hasUserDefinedNetworks project service) ⟨name, "networks", "\x27networks\x27 is not supported. Uncloud uses a flat mesh network with built-in service discovery."⟩ ++
  warnIf (service.networkMode ≠ "" ∧ service.networkMode ≠ "default") ⟨name, "network_mode", "\x27network_mode\x27 is not supported. Uncloud uses a flat mesh network."⟩ ++
  warnIf (service.restart ≠ "") ⟨name, "restart", "\x27restart\x27 is not supported. Uncloud manages container lifecycle automatically."⟩ ++
  warnIf (service.secrets ≠ []) ⟨name, "secrets", "\x27secrets\x27 is not supported. Use environment variables or configs instead."⟩ ++
  warnIf (service.profiles ≠ []) ⟨name, "profiles", "\x27profiles\x27 is not supported. Specify services explicitly during deploy."⟩ ++
  warnIf (service.links ≠ []) ⟨name, "links", "\x27links\x27 is deprecated and not supported. Use service names for discovery."⟩ ++
  warnIf (service.externalLinks ≠ []) ⟨name, "external_links", "\x27external_links\x27 is deprecated and not supported."⟩ ++
  warnIf (service.volumesFrom ≠ []) ⟨name, "volumes_from", "\x27volumes_from\x27 is not supported. Define volumes explicitly."⟩ ++
  warnIf (service.develop ≠ none) ⟨name, "develop", "\x27develop\x27 is not supported. This is a development-only feature."⟩ ++
  warnIf (service.hostname ≠ "") ⟨name, "hostname", "\x27hostname\x27 is not supported. Use service name for DNS resolution."⟩ ++
  warnIf (service.dns ≠ []) ⟨name, "dns", "\x27dns\x27 is not supported. Uncloud provides built-in DNS."⟩ ++
  warnIf (service.dnsOpts ≠ []) ⟨name, "dns_opt", "\x27dns_opt\x27 is not supported."⟩ ++
  warnIf (service.dnsSearch ≠ []) ⟨name, "dns_search", "\x27dns_search\x27 is not supported."⟩ ++
  warnIf (service.extraHosts ≠ []) ⟨name, "extra_hosts", "\x27extra_hosts\x27 is not supported."⟩ ++
  warnIf (service.securityOpt ≠ []) ⟨name, "security_opt", "\x27security_opt\x27 is not supported."⟩ ++
  warnIf (service.platform ≠ "") ⟨name, "platform", "\x27platform\x27 is not supported."⟩ ++
  warnIf (service.workingDir ≠ "") ⟨name, "working_dir", "\x27working_dir\x27 is not supported."⟩ ++
  warnIf (service.tmpfs ≠ []) ⟨name, "tmpfs", "\x27tmpfs\x27 at service level is not supported. Use volumes with tmpfs type instead."⟩ ++
  warnIf (service.readOnly) ⟨name, "read_only", "\x27read_only\x27 is not supported."⟩ ++
  warnIf (0 < service.shmSize) ⟨name, "shm_size", "\x27shm_size\x27 is not supported."⟩ ++
  warnIf (service.cpuSet ≠ "") ⟨name, "cpuset", "\x27cpuset\x27 is not supported."⟩ ++
  warnIf (0 < service.memSwapLimit) ⟨name, "memswap_limit", "\x27memswap_limit\x27 is not supported."⟩ ++
  warnIf (service.pid ≠ "") ⟨name, "pid", "\x27pid\x27 is not supported."⟩ ++
  warnIf (service.ipc ≠ "") ⟨name, "ipc", "\x27ipc\x27 is not supported."⟩ ++
  warnIf (service.uts ≠ "") ⟨name, "uts", "\x27uts\x27 is not supported."⟩ ++
  warnIf (service.usernsMode ≠ "") ⟨name, "userns_mode", "\x27userns_mode\x27 is not supported."⟩ ++
  warnIf (service.cgroupParent ≠ "") ⟨name, "cgroup_parent", "\x27cgroup_parent\x27 is not supported."⟩ ++
  warnIf (service.cgroup ≠ "") ⟨name, "cgroup", "\x27cgroup\x27 is not supported."⟩ ++
  warnIf (service.isolation ≠ "") ⟨name, "isolation", "\x27isolation\x27 is not supported."⟩ ++
  warnIf (service.runtime ≠ "") ⟨name, "runtime", "\x27runtime\x27 is not supported."⟩ ++
  warnIf (service.stopSignal ≠ "") ⟨name, "stop_signal", "\x27stop_signal\x27 is not supported."⟩ ++
  warnIf (service.stopGracePeriod ≠ none) ⟨name, "stop_grace_period", "\x27stop_grace_period\x27 is not supported."⟩ ++
  warnIf (service.macAddress ≠ "") ⟨name, "mac_address", "\x27mac_address\x27 is not supported."⟩ ++
  warnIf (service.tty) ⟨name, "tty", "\x27tty\x27 is not supported."⟩ ++
  warnIf (service.stdinOpen) ⟨name, "stdin_open", "\x27stdin_open\x27 is not supported."⟩ ++
  warnIf (service.oomKillDisable) ⟨name, "oom_kill_disable", "\x27oom_kill_disable\x27 is not supported."⟩ ++
  warnIf (service.oomScoreAdj ≠ 0) ⟨name, "oom_score_adj", "\x27oom_score_adj\x27 is not supported."⟩ ++
  warnIf (service.pidsLimit ≠ 0) ⟨name, "pids_limit", "\x27pids_limit\x27 is not supported."⟩ ++
  warnIf (service.storageOpt ≠ []) ⟨name, "storage_opt", "\x27storage_opt\x27 is not supported."⟩ ++
  warnIf (service.deviceCgroupRules ≠ []) ⟨name, "device_cgroup_rules", "\x27device_cgroup_rules\x27 is not supported."⟩ ++
  warnIf (service.credentialSpec ≠ none) ⟨name, "credential_spec", "\x27credential_spec\x27 is not supported."⟩ ++
  warnIf (service.groupAdd ≠ []) ⟨name, "group_add", "\x27group_add\x27 is not supported."⟩ ++
  warnIf (service.blkioConfig ≠ none) ⟨name, "blkio_config", "\x27blkio_config\x27 is not supported."⟩ ++
  warnIf (0 < service.cpuCount) ⟨name, "cpu_count", "\x27cpu_count\x27 is not supported."⟩ ++
  warnIf (0 < service.cpuPercent) ⟨name, "cpu_percent", "\x27cpu_percent\x27 is not supported."⟩ ++
  warnIf (0 < service.cpuPeriod) ⟨name, "cpu_period", "\x27cpu_period\x27 is not supported."⟩ ++
  warnIf (0 < service.cpuQuota) ⟨name, "cpu_quota", "\x27cpu_quota\x27 is not supported."⟩ ++
  warnIf (0 < service.cpuRTPeriod) ⟨name, "cpu_rt_period", "\x27cpu_rt_period\x27 is not supported."⟩ ++
  warnIf (0 < service.cpuRTRuntime) ⟨name, "cpu_rt_runtime", "\x27cpu_rt_runtime\x27 is not supported."⟩ ++
  warnIf (service.cpuShares ≠ 0) ⟨name, "cpu_shares", "\x27cpu_shares\x27 is not supported."⟩ ++
  warnIf (0 < service.memSwappiness) ⟨name, "mem_swappiness", "\x27mem_swappiness\x27 is not supported."⟩ ++
  warnIf (service.domainName ≠ "") ⟨name, "domainname", "\x27domainname\x27 is not supported."⟩ ++
  warnIf (service.attach = some false) ⟨name, "attach", "\x27attach\x27 is not supported."⟩ ++
  warnIf (service.labels ≠ []) ⟨name, "labels", "\x27labels\x27 at service level is not supported."⟩ ++
  warnIf (service.annotations ≠ []) ⟨name, "annotations", "\x27annotations\x27 is not supported."⟩ ++
  warnIf (service.extendsOpt ≠ none) ⟨name, "extends", "\x27extends\x27 is not supported."⟩ ++
  warnIf (service.postStart ≠ []) ⟨name, "post_start", "\x27post_start\x27 is not supported."⟩ ++
  warnIf (service.preStop ≠ []) ⟨name, "pre_stop", "\x27pre_stop\x27 is not supported."⟩ ++
  warnIf (service.provider ≠ none) ⟨name, "provider", "\x27provider\x27 is not supported."⟩ ++
  warnIf (service.models ≠ []) ⟨name, "models", "\x27models\x27 is not supported."⟩ ++
  warnIf (service.volumeDriver ≠ "") ⟨name, "volume_driver", "\x27volume_driver\x27 is not supported."⟩ ++
  warnIf (service.useAPISocket) ⟨name, "use_api_socket", "\x27use_api_socket\x27 is not supported."⟩ ++
  warnIf (service.net ≠ "") ⟨name, "net", "\x27net\x27 is deprecated and not supported. Use \x27network_mode\x27 instead."⟩ ++
  (match service.deploy with
   | none => []
   | some deploy => checkDeployWarnings name deploy)

/-- The comparator handed to `slices.SortFunc` orders by Key only; `warningLe`
is the induced `≤`. -/
def warningLe (a b : Warning) : Bool := strLe a.key b.key

/-- `slices.SortFunc(warnings, byKey)`: produces a permutation of the input
that is non-decreasing under the comparator. Embedded via mergeSort; the order
of equal keys is unspecified in Go (unstable sort) and irrelevant here since a
single service scan never emits two warnings with the same key. -/
def sortWarnings (warnings : List Warning) : List Warning :=
  warnings.mergeSort warningLe

/-- `checkServiceWarnings(project, name, service)`. -/
def checkServiceWarnings (project : Project) (name : String)
    (service : ServiceConfig) : List Warning :=
  sortWarnings (serviceWarningsUnsorted project name service)

/-- `CheckProjectWarnings(project)`: appends each service scan in the order
`project.ServiceNames()` yields. -/
def CheckProjectWarnings (project : Project) : List Warning :=
  project.serviceNames.foldl
    (fun warnings name =>
      warnings ++ checkServiceWarnings project name (project.services name))
    []

/-- Number of warnings carrying a given key. -/
def countKey (k : String) (warnings : List Warning) : Nat :=
  warnings.countP (fun w => w.key == k)

/-! ## Filesystem paths (Go path/filepath on unix, as used by secret.go) -/

/-- Go `filepath.IsAbs` on unix: the path starts with a slash. -/
def isAbs (p : String) : Bool :=
  match p.data with
  | [] => false
  | c :: _ => c = '/'

/-- Char-level split on slashes (the element scan underlying Go path
cleaning). -/
def splitSlashAux : List Char → List Char → List String
  | [], cur => [String.mk cur.reverse]
  | c :: cs, cur =>
    if c = '/' then String.mk cur.reverse :: splitSlashAux cs []
    else splitSlashAux cs (c :: cur)

def splitSlash (s : String) : List String := splitSlash.go s.data
where go (cs : List Char) : List String := splitSlashAux cs []

/-- One path element step of Go `filepath.Clean`: drop empty and `.` elements,
`..` pops the previous element (kept literally when nothing can be popped in a
relative path, dropped at the root of an absolute one). `acc` holds the output
elements in reverse. -/
def cleanStep (rooted : Bool) (acc : List String) (c : String) : List String :=
  if c = "" ∨ c = "." then acc
  else if c = ".." then
    match acc with
    | [] => if rooted then [] else [".."]
    | a :: rest => if a = ".." then c :: acc else rest
  else c :: acc

/-- Go `filepath.Clean` (unix). -/
def clean (p : String) : String :=
  if p = "" then "."
  else
    let rooted := isAbs p
    let comps := (splitSlash p).foldl (cleanStep rooted) []
    let body := String.intercalate "/" comps.reverse
    if rooted then "/" ++ body
    else if body = "" then "." else body

/-- Go `filepath.Join(a, b)` (unix): join the non-empty parts with a slash and
clean the result; all-empty input gives `""`. -/
def filepathJoin (a b : String) : String :=
  if a = "" then (if b = "" then "" else clean b) else clean (a ++ "/" ++ b)

/-! ## Secret data model (pkg/api/secret.go and compose-go types) -/

/-- `types.SecretConfig` fields consumed by the resolver: inline `Content`,
`File`, `External`. -/
structure SecretConfig where
  content : String := ""
  file : String := ""
  external : Bool := false
deriving DecidableEq

/-- `api.SecretSpec`: name plus resolved byte content. -/
structure SecretSpec where
  name : String := ""
  content : List Nat := []
deriving DecidableEq

/-- `api.SecretMount`. `Mode *os.FileMode` is `Option Nat` (the bit pattern is
copied, never interpreted). -/
structure SecretMount where
  secretName : String := ""
  containerPath : String := ""
  uid : String := ""
  gid : String := ""
  mode : Option Nat := none
deriving DecidableEq

/-- `os.ReadFile` as seen by the resolver: `none` = the read fails. -/
def FileSystem : Type := String → Option (List Nat)

/-- The three failure classes of `secretSpecsFromCompose` (Go returns
`fmt.Errorf` values carrying the same identifying data). -/
inductive SecretErr where
  | notFound (source : String)
  | externalUnsupported (source : String)
  | readFile (file : String)
deriving DecidableEq

/-- `true` on `.error`. -/
def isError {ε α : Type} : Except ε α → Bool
  | .error _ => true
  | .ok _ => false

/-! ## Secret resolver (pkg/client/compose/secret.go) -/

/-- The path a file-backed secret is read from: used as-is when absolute,
`filepath.Join(workingDir, path)` when relative. -/
def secretFilePath (workingDir file : String) : String :=
  if isAbs file then file else filepathJoin workingDir file

/-- One iteration of the loop in `secretSpecsFromCompose`: look the source up,
reject external definitions, build the spec from the inline content, override
it with the file bytes when a file path is set, then build the mount. -/
def resolveServiceSecret (secrets : String → Option SecretConfig) (workingDir : String)
    (fs : FileSystem) (serviceSecret : ServiceSecretConfig) :
    Except SecretErr (SecretSpec × SecretMount) :=
  match secrets serviceSecret.source with
  | none => .error (.notFound serviceSecret.source)
  | some projectSecret =>
    if projectSecret.external then .error (.externalUnsupported serviceSecret.source)
    else
      let spec : SecretSpec :=
        { name := serviceSecret.source, content := strBytes projectSecret.content }
      let specResult : Except SecretErr SecretSpec :=
        if projectSecret.file ≠ "" then
          match fs (secretFilePath workingDir projectSecret.file) with
          | none => .error (.readFile projectSecret.file)
          | some fileContent => .ok { spec with content := fileContent }
        else .ok spec
      match specResult with
      | .error e => .error e
      | .ok spec =>
        let target :=
          if serviceSecret.target = "" then "/run/secrets/" ++ serviceSecret.source
          else serviceSecret.target
        .ok (spec,
          { secretName := spec.name, containerPath := target,
            uid := serviceSecret.uid, gid := serviceSecret.gid,
            mode := serviceSecret.mode })

/-- `secretSpecsFromCompose(secrets, serviceSecrets, workingDir)`: Go returns
`(nil, nil, err)` at the first failing reference, embedded as `.error` (which
carries no specs and no mounts). -/
def secretSpecsFromCompose (secrets : String → Option SecretConfig)
    (serviceSecrets : List ServiceSecretConfig) (workingDir : String) (fs : FileSystem) :
    Except SecretErr (List SecretSpec × List SecretMount) :=
  match serviceSecrets with
  | [] => .ok ([], [])
  | serviceSecret :: rest =>
    match resolveServiceSecret secrets workingDir fs serviceSecret with
    | .error e => .error e
    | .ok (spec, mount) =>
      match secretSpecsFromCompose secrets rest workingDir fs with
      | .error e => .error e
      | .ok (specs, mounts) => .ok (spec :: specs, mount :: mounts)

/-! ## api validation (pkg/api/secret.go) -/

/-- `strconv.ParseUint(s, 10, 64)` digit loop: `none` on a non-digit, on empty
input or when the value would exceed the unsigned 64-bit maximum. -/
def parseUint64Aux : List Char → Nat → Option Nat
  | [], acc => some acc
  | c :: cs, acc =>
    if c.isDigit then
      let acc := acc * 10 + (c.toNat - 48)
      if acc < 2 ^ 64 then parseUint64Aux cs acc else none
    else none

/-- `strconv.ParseUint(s, 10, 64)` (signs are not permitted for ParseUint and
underscores are not permitted for base 10, so only digit runs parse). -/
def parseUint64 (s : String) : Option Nat :=
  if s = "" then none else parseUint64Aux s.data 0

/-- The Go conversion `int(u)` of a `uint64`, on a 64-bit platform. -/
def intOfUint64 (n : Nat) : Int :=
  if n < 2 ^ 63 then (n : Int) else (n : Int) - 2 ^ 64

/-- `SecretMount.GetNumericUid`: empty ⇒ no value; otherwise ParseUint, then
the `if int(uid) < 0` guard ("value too high"). The parse error detail wrapped
by `%w` is collapsed into the message prefix. -/
def SecretMount.GetNumericUid (s : SecretMount) : Except String (Option Nat) :=
  if s.uid = "" then .ok none
  else
    match parseUint64 s.uid with
    | none => .error ("invalid Uid \x27" ++ s.uid ++ "\x27")
    | some uid =>
      if intOfUint64 uid < 0 then
        .error ("invalid Uid \x27" ++ s.uid ++ "\x27: value too high")
      else .ok (some uid)

/-- `SecretMount.GetNumericGid`: same logic as GetNumericUid on the Gid
field. -/
def SecretMount.GetNumericGid (s : SecretMount) : Except String (Option Nat) :=
  if s.gid = "" then .ok none
  else
    match parseUint64 s.gid with
    | none => .error ("invalid Gid \x27" ++ s.gid ++ "\x27")
    | some gid =>
      if intOfUint64 gid < 0 then
        .error ("invalid Gid \x27" ++ s.gid ++ "\x27: value too high")
      else .ok (some gid)

/-- `SecretSpec.Validate`. -/
def SecretSpec.Validate (s : SecretSpec) : Except String Unit :=
  if s.name = "" then .error "secret name is required" else .ok ()

/-- `SecretMount.Validate`. -/
def SecretMount.Validate (s : SecretMount) : Except String Unit :=
  if s.secretName = "" then .error "secret mount source is required"
  else
    match s.GetNumericUid with
    | .error e => .error e
    | .ok _ =>
      match s.GetNumericGid with
      | .error e => .error e
      | .ok _ =>
        if s.containerPath ≠ "" ∧ isAbs s.containerPath = false then
          .error "container path must be absolute"
        else .ok ()

/-- Spec half of `ValidateSecretsAndMounts`: validate each spec and collect
names into the seen set (the Go `secretMap`), failing on the first repeat. -/
def validateSpecsAux : List SecretSpec → List String → Except String (List String)
  | [], seen => .ok seen
  | secret :: rest, seen =>
    match secret.Validate with
    | .error e => .error ("invalid secret: " ++ e)
    | .ok _ =>
      if secret.name ∈ seen then .error ("duplicate secret name: \x27" ++ secret.name ++ "\x27")
      else validateSpecsAux rest (secret.name :: seen)

/-- Mount half of `ValidateSecretsAndMounts`: validate each mount and require
its secret name in the seen set. -/
def validateMountsAux (seen : List String) : List SecretMount → Except String Unit
  | [] => .ok ()
  | mount :: rest =>
    match mount.Validate with
    | .error e => .error ("invalid secret mount: " ++ e)
    | .ok _ =>
      if mount.secretName ∈ seen then validateMountsAux seen rest
      else
        .error ("secret mount source \x27" ++ mount.secretName ++
          "\x27 does not refer to any defined secret")

/-- `ValidateSecretsAndMounts(secrets, mounts)`. -/
def ValidateSecretsAndMounts (secrets : List SecretSpec) (mounts : List SecretMount) :
    Except String Unit :=
  match validateSpecsAux secrets [] with
  | .error e => .error e
  | .ok seen => validateMountsAux seen mounts

/-! ## Lemmas -/

theorem charListLe_total (a b : List Char) : charListLe a b || charListLe b a := by
  induction a generalizing b with
  | nil => simp [charListLe]
  | cons x xs ih =>
    cases b with
    | nil => simp [charListLe]
    | cons y ys =>
      simp only [charListLe, Bool.or_eq_true, Bool.and_eq_true, decide_eq_true_eq]
      rcases Nat.lt_trichotomy x.toNat y.toNat with h | h | h
      · tauto
      · have := ih ys
        simp only [Bool.or_eq_true] at this
        tauto
      · tauto

theorem charListLe_trans (a b c : List Char) (hab : charListLe a b = true)
    (hbc : charListLe b c = true) : charListLe a c = true := by
  induction a generalizing b c with
  | nil => simp [charListLe]
  | cons x xs ih =>
    cases b with
    | nil => simp [charListLe] at hab
    | cons y ys =>
      cases c with
      | nil => simp [charListLe] at hbc
      | cons z zs =>
        simp only [charListLe, Bool.or_eq_true, Bool.and_eq_true, decide_eq_true_eq] at hab hbc ⊢
        rcases hab with h1 | ⟨h1, hle1⟩
        · rcases hbc with h2 | ⟨h2, _⟩
          · exact Or.inl (Nat.lt_trans h1 h2)
          · exact Or.inl (h2 ▸ h1)
        · rcases hbc with h2 | ⟨h2, hle2⟩
          · exact Or.inl (h1 ▸ h2)
          · exact Or.inr ⟨h1.trans h2, ih ys zs hle1 hle2⟩

theorem strLe_total (a b : String) : strLe a b || strLe b a := charListLe_total a.data b.data

theorem strLe_trans (a b c : String) (hab : strLe a b = true) (hbc : strLe b c = true) :
    strLe a c = true := charListLe_trans a.data b.data c.data hab hbc

theorem countKey_append (k : String) (l₁ l₂ : List Warning) :
    countKey k (l₁ ++ l₂) = countKey k l₁ + countKey k l₂ :=
  List.countP_append _ l₁ l₂

theorem countKey_warnIf (k : String) (c : Prop) [Decidable c] (w : Warning) :
    countKey k (warnIf c w) = if w.key == k then (if c then 1 else 0) else 0 := by
  by_cases hc : c <;> by_cases hp : w.key == k <;>
    simp [warnIf, countKey, hc, hp, List.countP_cons]

theorem countKey_sortWarnings (k : String) (warnings : List Warning) :
    countKey k (sortWarnings warnings) = countKey k warnings :=
  (List.mergeSort_perm warnings warningLe).countP_eq _

theorem countKey_checkServiceWarnings (k : String) (project : Project) (name : String)
    (service : ServiceConfig) :
    countKey k (checkServiceWarnings project name service) =
      countKey k (serviceWarningsUnsorted project name service) :=
  countKey_sortWarnings k _

theorem countKey_deploy_placement (name : String) (deploy : DeployConfig) :
    countKey "deploy.placement" (checkDeployWarnings name deploy) =
      if deploy.placement.constraints ≠ none ∨ deploy.placement.preferences ≠ [] then 1
      else 0 := by
  rcases hu : deploy.updateConfig with _ | u <;>
    simp [checkDeployWarnings, countKey_append, countKey_warnIf, hu]

theorem countKey_deploy_networks (name : String) (deploy : DeployConfig) :
    countKey "networks" (checkDeployWarnings name deploy) = 0 := by
  rcases hu : deploy.updateConfig with _ | u <;>
    simp [checkDeployWarnings, countKey_append, countKey_warnIf, hu]

theorem countKey_deploy_dependsOn (name : String) (deploy : DeployConfig) :
    countKey "depends_on" (checkDeployWarnings name deploy) = 0 := by
  rcases hu : deploy.updateConfig with _ | u <;>
    simp [checkDeployWarnings, countKey_append, countKey_warnIf, hu]

theorem countKey_deploy_links (name : String) (deploy : DeployConfig) :
    countKey "links" (checkDeployWarnings name deploy) = 0 := by
  rcases hu : deploy.updateConfig with _ | u <;>
    simp [checkDeployWarnings, countKey_append, countKey_warnIf, hu]

theorem countKey_unsorted_networks (project : Project) (name : String)
    (service : ServiceConfig) :
    countKey "networks" (serviceWarningsUnsorted project name service) =
      if service.networks ≠ [] ∧ hasUserDefinedNetworks project service then 1 else 0 := by
  rcases hd : service.deploy with _ | d <;>
    simp [serviceWarningsUnsorted, countKey_append, countKey_warnIf, hd,
      countKey_deploy_networks]

theorem countKey_unsorted_dependsOn (project : Project) (name : String)
    (service : ServiceConfig) :
    countKey "depends_on" (serviceWarningsUnsorted project name service) =
      if service.dependsOn ≠ [] ∧ service.links = [] then 1 else 0 := by
  rcases hd : service.deploy with _ | d <;>
    simp [serviceWarningsUnsorted, countKey_append, countKey_warnIf, hd,
      countKey_deploy_dependsOn]

theorem countKey_unsorted_links (project : Project) (name : String)
    (service : ServiceConfig) :
    countKey "links" (serviceWarningsUnsorted project name service) =
      if service.links ≠ [] then 1 else 0 := by
  rcases hd : service.deploy with _ | d <;>
    simp [serviceWarningsUnsorted, countKey_append, countKey_warnIf, hd,
      countKey_deploy_links]

theorem countKey_unsorted_placement (project : Project) (name : String)
    (service : ServiceConfig) (deploy : DeployConfig) (hd : service.deploy = some deploy) :
    countKey "deploy.placement" (serviceWarningsUnsorted project name service) =
      if deploy.placement.constraints ≠ none ∨ deploy.placement.preferences ≠ [] then 1
      else 0 := by
  simp [serviceWarningsUnsorted, countKey_append, countKey_warnIf, hd,
    countKey_deploy_placement]

theorem foldl_append_eq_flatten {α β : Type} (f : β → List α) (l : List β)
    (init : List α) :
    l.foldl (fun acc x => acc ++ f x) init = init ++ (l.map f).flatten := by
  induction l generalizing init with
  | nil => simp
  | cons x xs ih => simp [ih, List.append_assoc]

theorem warningLe_trans (a b c : Warning) (hab : warningLe a b = true)
    (hbc : warningLe b c = true) : warningLe a c = true :=
  strLe_trans a.key b.key c.key hab hbc

theorem warningLe_total (a b : Warning) : warningLe a b || warningLe b a :=
  strLe_total a.key b.key

theorem sortWarnings_sorted (warnings : List Warning) :
    List.Pairwise (fun a b => strLe a.key b.key = true) (sortWarnings warnings) :=
  List.sorted_mergeSort warningLe_trans warningLe_total warnings

/-! ## Claim theorems: compatibility scanner -/

/-- C1: CheckProjectWarnings returns the in-order concatenation of the
per-service scans in the order the project yields its service names, and each
per-service scan is sorted lexicographically (ascending, byte-wise, i.e.
`strLe`) by Key. -/
theorem checkProjectWarnings_order (project : Project) :
    CheckProjectWarnings project =
      (project.serviceNames.map
        (fun name => checkServiceWarnings project name (project.services name))).flatten ∧
    ∀ name service,
      List.Pairwise (fun a b => strLe a.key b.key = true)
        (checkServiceWarnings project name service) := by
  constructor
  · simpa using foldl_append_eq_flatten
      (fun name => checkServiceWarnings project name (project.services name))
      project.serviceNames []
  · intro name service
    exact sortWarnings_sorted _

/-- C2: a service whose network attachments all name the project's own network
or `"default"` gets no `networks` warning; a service with at least one other
attachment gets exactly one. -/
theorem networks_warning_correct (project : Project) (name : String)
    (service : ServiceConfig) :
    ((∀ n ∈ service.networks, n = project.name ∨ n = "default") →
      countKey "networks" (checkServiceWarnings project name service) = 0) ∧
    ((∃ n ∈ service.networks, n ≠ project.name ∧ n ≠ "default") →
      countKey "networks" (checkServiceWarnings project name service) = 1) := by
  simp only [countKey_checkServiceWarnings, countKey_unsorted_networks]
  constructor
  · intro h
    rw [if_neg]
    rintro ⟨hne, hud⟩
    simp only [hasUserDefinedNetworks, if_neg hne, List.any_eq_true,
      Bool.and_eq_true, decide_eq_true_eq] at hud
    obtain ⟨x, hx, hx1, hx2⟩ := hud
    rcases h x hx with rfl | rfl
    · exact hx1 rfl
    · exact hx2 rfl
  · rintro ⟨x, hx, hx1, hx2⟩
    have hne : service.networks ≠ [] := List.ne_nil_of_mem hx
    rw [if_pos]
    refine ⟨hne, ?_⟩
    simp only [hasUserDefinedNetworks, if_neg hne, List.any_eq_true,
      Bool.and_eq_true, decide_eq_true_eq]
    exact ⟨x, hx, hx1, hx2⟩

/-- C2 witness. -/
theorem networks_warning_correct_witness :
    countKey "networks" (checkServiceWarnings { name := "proj" } "web"
      { networks := ["proj", "default"] }) = 0 ∧
    countKey "networks" (checkServiceWarnings { name := "proj" } "web"
      { networks := ["frontend"] }) = 1 :=
  ⟨(networks_warning_correct { name := "proj" } "web"
      { networks := ["proj", "default"] }).1 (by decide),
   (networks_warning_correct { name := "proj" } "web"
      { networks := ["frontend"] }).2 ⟨"frontend", by decide, by decide, by decide⟩⟩

/-- C3: non-empty depends_on with empty links gives one `depends_on` warning;
with both non-empty, one `links` warning and no `depends_on` warning. -/
theorem dependsOn_links_warnings (project : Project) (name : String)
    (service : ServiceConfig) :
    (service.dependsOn ≠ [] → service.links = [] →
      countKey "depends_on" (checkServiceWarnings project name service) = 1) ∧
    (service.dependsOn ≠ [] → service.links ≠ [] →
      countKey "links" (checkServiceWarnings project name service) = 1 ∧
      countKey "depends_on" (checkServiceWarnings project name service) = 0) := by
  simp only [countKey_checkServiceWarnings, countKey_unsorted_dependsOn,
    countKey_unsorted_links]
  constructor
  · intro h1 h2
    rw [if_pos ⟨h1, h2⟩]
  · intro h1 h2
    constructor
    · rw [if_pos h2]
    · rw [if_neg]
      rintro ⟨_, hl⟩
      exact h2 hl

/-- C3 witness. -/
theorem dependsOn_links_warnings_witness :
    countKey "depends_on" (checkServiceWarnings {} "web" { dependsOn := ["db"] }) = 1 ∧
    (countKey "links" (checkServiceWarnings {} "web"
        { dependsOn := ["db"], links := ["db"] }) = 1 ∧
      countKey "depends_on" (checkServiceWarnings {} "web"
        { dependsOn := ["db"], links := ["db"] }) = 0) :=
  ⟨(dependsOn_links_warnings {} "web" { dependsOn := ["db"] }).1 (by decide) rfl,
   (dependsOn_links_warnings {} "web"
      { dependsOn := ["db"], links := ["db"] }).2 (by decide) (by decide)⟩

/-- C9 counterexample: a deploy placement whose constraints slice is non-nil
but empty (and with no preferences) still produces the `deploy.placement`
warning, so "if and only if constraints or preferences are non-empty" fails:
both are empty here yet the warning is emitted. -/
theorem deploy_placement_claim_counterexample :
    countKey "deploy.placement" (checkServiceWarnings {} "web"
      { deploy := some { placement := { constraints := some [], preferences := [] } } }) = 1 := by
  rw [countKey_checkServiceWarnings]
  decide

/-- C9 (amended): for a service with a deploy sub-block, exactly one
`deploy.placement` warning is produced iff the placement constraints slice is
present (non-nil, even when empty) or the preferences are non-empty; and the
deploy warnings never depend on the replica count or the update order. -/
theorem deploy_placement_warning (project : Project) (name : String)
    (service : ServiceConfig) (deploy : DeployConfig)
    (hd : service.deploy = some deploy) :
    (countKey "deploy.placement" (checkServiceWarnings project name service) =
      if deploy.placement.constraints ≠ none ∨ deploy.placement.preferences ≠ [] then 1
      else 0) ∧
    ∀ replicas order,
      checkDeployWarnings name
        { deploy with replicas := replicas,
                      updateConfig := deploy.updateConfig.map fun u => { u with order := order } } =
        checkDeployWarnings name deploy := by
  constructor
  · rw [countKey_checkServiceWarnings]
    exact countKey_unsorted_placement project name service deploy hd
  · intro replicas order
    rcases hu : deploy.updateConfig with _ | u <;>
      simp [checkDeployWarnings, hu]

/-- C9 witness. -/
theorem deploy_placement_warning_witness :
    (let d0 : DeployConfig := { placement := { constraints := some ["rack==a"] } };
     (countKey "deploy.placement" (checkServiceWarnings {} "web" { deploy := some d0 }) =
       if d0.placement.constraints ≠ none ∨ d0.placement.preferences ≠ [] then 1 else 0) ∧
     ∀ replicas order,
       checkDeployWarnings "web"
         { d0 with replicas := replicas,
                   updateConfig := d0.updateConfig.map fun u => { u with order := order } } =
         checkDeployWarnings "web" d0) :=
  deploy_placement_warning {} "web"
    { deploy := some { placement := { constraints := some ["rack==a"] } } }
    { placement := { constraints := some ["rack==a"] } } rfl

/-! ## Lemmas: numeric uid/gid parsing -/

theorem parseUint64Aux_lt (cs : List Char) (acc n : Nat) (hacc : acc < 2 ^ 64)
    (h : parseUint64Aux cs acc = some n) : n < 2 ^ 64 := by
  induction cs generalizing acc with
  | nil =>
    simp only [parseUint64Aux, Option.some.injEq] at h
    omega
  | cons c cs ih =>
    simp only [parseUint64Aux] at h
    split at h
    · split at h
      · exact ih _ ‹_› h
      · exact absurd h (by simp)
    · exact absurd h (by simp)

theorem parseUint64_lt (s : String) (n : Nat) (h : parseUint64 s = some n) : n < 2 ^ 64 := by
  unfold parseUint64 at h
  split at h
  · exact absurd h (by simp)
  · exact parseUint64Aux_lt s.data 0 n (by norm_num) h

theorem intOfUint64_neg_iff (n : Nat) (hn : n < 2 ^ 64) :
    intOfUint64 n < 0 ↔ 2 ^ 63 ≤ n := by
  unfold intOfUint64
  split <;> omega

/-- C6 counterexample: `"9223372036854775808"` (= 2^63) parses as an
unsigned 64-bit integer, yet GetNumericUid rejects it (the `int(uid) < 0`
guard fires), refuting "passes if and only if it parses as a non-negative
integer within the unsigned 64-bit range". -/
theorem getNumericUid_claim_counterexample :
    parseUint64 "9223372036854775808" = some (2 ^ 63) ∧
    isError (SecretMount.GetNumericUid
      { secretName := "a", uid := "9223372036854775808" }) = true := by
  constructor
  · decide
  · decide

/-- C6 (amended): a Uid or Gid string, if set, passes GetNumericUid /
GetNumericGid iff it parses as a non-negative integer strictly below 2^63
(the non-negative signed 64-bit range); an empty Uid or Gid always passes and
yields no numeric value. -/
theorem getNumericId_ok_iff (m : SecretMount) :
    (isError m.GetNumericUid = false ↔
      (m.uid = "" ∨ ∃ u, parseUint64 m.uid = some u ∧ u < 2 ^ 63)) ∧
    (m.uid = "" → m.GetNumericUid = .ok none) ∧
    (isError m.GetNumericGid = false ↔
      (m.gid = "" ∨ ∃ g, parseUint64 m.gid = some g ∧ g < 2 ^ 63)) ∧
    (m.gid = "" → m.GetNumericGid = .ok none) := by
  refine ⟨?_, ?_, ?_, ?_⟩
  · unfold SecretMount.GetNumericUid
    split
    · simp [isError, *]
    · rcases hp : parseUint64 m.uid with _ | u
      · simp only [isError, hp]
        constructor
        · intro h
          exact absurd h (by simp)
        · rintro (h | ⟨u, hu, _⟩)
          · exact absurd h ‹¬ m.uid = ""›
          · exact absurd hu (by simp)
      · have hlt := parseUint64_lt m.uid u hp
        by_cases hbig : intOfUint64 u < 0
        · simp only [hp, if_pos hbig, isError]
          constructor
          · intro h
            exact absurd h (by simp)
          · rintro (h | ⟨v, hv, hv63⟩)
            · exact absurd h ‹¬ m.uid = ""›
            · cases hv
              rw [intOfUint64_neg_iff u hlt] at hbig
              omega
        · simp only [hp, if_neg hbig, isError]
          rw [intOfUint64_neg_iff u hlt] at hbig
          exact iff_of_true trivial (Or.inr ⟨u, rfl, by omega⟩)
  · intro h
    simp [SecretMount.GetNumericUid, h]
  · unfold SecretMount.GetNumericGid
    split
    · simp [isError, *]
    · rcases hp : parseUint64 m.gid with _ | g
      · simp only [isError, hp]
        constructor
        · intro h
          exact absurd h (by simp)
        · rintro (h | ⟨g, hg, _⟩)
          · exact absurd h ‹¬ m.gid = ""›
          · exact absurd hg (by simp)
      · have hlt := parseUint64_lt m.gid g hp
        by_cases hbig : intOfUint64 g < 0
        · simp only [hp, if_pos hbig, isError]
          constructor
          · intro h
            exact absurd h (by simp)
          · rintro (h | ⟨v, hv, hv63⟩)
            · exact absurd h ‹¬ m.gid = ""›
            · cases hv
              rw [intOfUint64_neg_iff g hlt] at hbig
              omega
        · simp only [hp, if_neg hbig, isError]
          rw [intOfUint64_neg_iff g hlt] at hbig
          exact iff_of_true trivial (Or.inr ⟨g, rfl, by omega⟩)
  · intro h
    simp [SecretMount.GetNumericGid, h]

/-- C6 witness. -/
theorem getNumericId_ok_iff_witness :
    isError (SecretMount.GetNumericUid { secretName := "a", uid := "1000" }) = false ∧
    SecretMount.GetNumericGid { secretName := "a", uid := "1000" } = .ok none :=
  ⟨(getNumericId_ok_iff { secretName := "a", uid := "1000" }).1.mpr
      (Or.inr ⟨1000, by decide, by decide⟩),
   (getNumericId_ok_iff { secretName := "a", uid := "1000" }).2.2.2 rfl⟩

/-! ## Lemmas: secret resolution -/

theorem resolveServiceSecret_ok (secrets : String → Option SecretConfig)
    (workingDir : String) (fs : FileSystem) (ss : ServiceSecretConfig)
    (spec : SecretSpec) (mount : SecretMount)
    (h : resolveServiceSecret secrets workingDir fs ss = .ok (spec, mount)) :
    ∃ d, secrets ss.source = some d ∧ d.external = false ∧
      spec.name = ss.source ∧
      (d.file = "" → spec.content = strBytes d.content) ∧
      (d.file ≠ "" → fs (secretFilePath workingDir d.file) = some spec.content) ∧
      mount.secretName = ss.source ∧
      mount.containerPath =
        (if ss.target = "" then "/run/secrets/" ++ ss.source else ss.target) ∧
      mount.uid = ss.uid ∧ mount.gid = ss.gid ∧ mount.mode = ss.mode := by
  rcases hs : secrets ss.source with _ | d
  · simp [resolveServiceSecret, hs] at h
  · refine ⟨d, rfl, ?_⟩
    cases he : d.external with
    | true => simp [resolveServiceSecret, hs, he] at h
    | false =>
      by_cases hf : d.file = ""
      · simp only [resolveServiceSecret, hs, he, hf, Bool.false_eq_true, if_false,
          ne_eq, not_true_eq_false, Except.ok.injEq, Prod.mk.injEq] at h
        obtain ⟨hsp, hmt⟩ := h
        subst hsp
        subst hmt
        simp [hf]
      · rcases hr : fs (secretFilePath workingDir d.file) with _ | bytes
        · simp [resolveServiceSecret, hs, he, hf, hr] at h
        · simp only [resolveServiceSecret, hs, he, hf, Bool.false_eq_true, if_false,
            ne_eq, not_false_eq_true, if_true, hr, Except.ok.injEq, Prod.mk.injEq] at h
          obtain ⟨hsp, hmt⟩ := h
          subst hsp
          subst hmt
          simp [hf, hr]

theorem resolveServiceSecret_error_iff (secrets : String → Option SecretConfig)
    (workingDir : String) (fs : FileSystem) (ss : ServiceSecretConfig) :
    (∃ e, resolveServiceSecret secrets workingDir fs ss = .error e) ↔
      (secrets ss.source = none ∨
        ∃ d, secrets ss.source = some d ∧
          (d.external = true ∨
            (d.file ≠ "" ∧ fs (secretFilePath workingDir d.file) = none))) := by
  rcases hs : secrets ss.source with _ | d
  · simp [resolveServiceSecret, hs]
  · cases he : d.external with
    | true => simp [resolveServiceSecret, hs, he]
    | false =>
      by_cases hf : d.file = ""
      · simp [resolveServiceSecret, hs, he, hf]
      · rcases hr : fs (secretFilePath workingDir d.file) with _ | bytes
        · simp [resolveServiceSecret, hs, he, hf, hr]
        · simp [resolveServiceSecret, hs, he, hf, hr]

theorem secretSpecsFromCompose_ok (secrets : String → Option SecretConfig)
    (workingDir : String) (fs : FileSystem) (refs : List ServiceSecretConfig)
    (specs : List SecretSpec) (mounts : List SecretMount)
    (h : secretSpecsFromCompose secrets refs workingDir fs = .ok (specs, mounts)) :
    specs.length = refs.length ∧ mounts.length = refs.length ∧
    ∀ i, i < refs.length →
      ∃ ss spec mount, refs[i]? = some ss ∧ specs[i]? = some spec ∧
        mounts[i]? = some mount ∧
        resolveServiceSecret secrets workingDir fs ss = .ok (spec, mount) := by
  induction refs generalizing specs mounts with
  | nil =>
    simp only [secretSpecsFromCompose, Except.ok.injEq, Prod.mk.injEq] at h
    obtain ⟨h1, h2⟩ := h
    subst h1
    subst h2
    simp
  | cons r rest ih =>
    simp only [secretSpecsFromCompose] at h
    rcases hr : resolveServiceSecret secrets workingDir fs r with e | ⟨sp, mt⟩
    · rw [hr] at h
      exact absurd h (by simp)
    · rw [hr] at h
      rcases hrec : secretSpecsFromCompose secrets rest workingDir fs with e | ⟨sps, mts⟩
      · rw [hrec] at h
        exact absurd h (by simp)
      · rw [hrec] at h
        simp only [Except.ok.injEq, Prod.mk.injEq] at h
        obtain ⟨h1, h2⟩ := h
        subst h1
        subst h2
        obtain ⟨hl1, hl2, hidx⟩ := ih sps mts hrec
        refine ⟨by simp [hl1], by simp [hl2], ?_⟩
        intro i hi
        cases i with
        | zero => exact ⟨r, sp, mt, by simp, by simp, by simp, hr⟩
        | succ n =>
          obtain ⟨ss, spec, mount, hss, hspec, hmount, hres⟩ :=
            hidx n (by simpa using hi)
          exact ⟨ss, spec, mount, by simpa using hss, by simpa using hspec,
            by simpa using hmount, hres⟩

theorem runSecretsPrefix_ne_empty (s : String) : "/run/secrets/" ++ s ≠ "" := by
  intro hcontra
  have hlen : ("/run/secrets/" ++ s).data.length = 0 := by
    rw [hcontra]
    decide
  rw [String.data_append, List.length_append] at hlen
  have h13 : ("/run/secrets/".data.length) = 13 := by decide
  omega

/-! ## Claim theorems: secret resolution -/

/-- C4: resolution fails exactly when some reference names an absent secret,
or a referenced definition is external, or a file-backed definition's read
fails; and a failing call returns no specs and no mounts. -/
theorem secret_resolution_failure (secrets : String → Option SecretConfig)
    (workingDir : String) (fs : FileSystem) (refs : List ServiceSecretConfig) :
    ((∃ e, secretSpecsFromCompose secrets refs workingDir fs = .error e) ↔
      ∃ ss ∈ refs,
        secrets ss.source = none ∨
        ∃ d, secrets ss.source = some d ∧
          (d.external = true ∨
            (d.file ≠ "" ∧ fs (secretFilePath workingDir d.file) = none))) ∧
    (∀ e, secretSpecsFromCompose secrets refs workingDir fs = .error e →
      ∀ specs mounts,
        secretSpecsFromCompose secrets refs workingDir fs ≠ .ok (specs, mounts)) := by
  constructor
  · induction refs with
    | nil => simp [secretSpecsFromCompose]
    | cons r rest ih =>
      simp only [secretSpecsFromCompose]
      rcases hr : resolveServiceSecret secrets workingDir fs r with e | ⟨sp, mt⟩
      · have hcond := (resolveServiceSecret_error_iff secrets workingDir fs r).mp ⟨e, hr⟩
        exact iff_of_true ⟨e, rfl⟩ ⟨r, List.mem_cons_self r rest, hcond⟩
      · rcases hrec : secretSpecsFromCompose secrets rest workingDir fs with e | ⟨sps, mts⟩
        · obtain ⟨ss, hss, hcond⟩ := ih.mp ⟨e, hrec⟩
          exact iff_of_true ⟨e, rfl⟩ ⟨ss, List.mem_cons_of_mem r hss, hcond⟩
        · apply iff_of_false
          · rintro ⟨e, he⟩
            exact absurd he (by simp)
          · rintro ⟨ss, hss, hcond⟩
            rcases List.mem_cons.mp hss with rfl | hss'
            · obtain ⟨e, he⟩ := (resolveServiceSecret_error_iff secrets workingDir
                fs ss).mpr hcond
              rw [hr] at he
              exact absurd he (by simp)
            · obtain ⟨e, he⟩ := ih.mpr ⟨ss, hss', hcond⟩
              rw [hrec] at he
              exact absurd he (by simp)
  · intro e he specs mounts hok
    rw [he] at hok
    exact absurd hok (by simp)

/-- C4 witness. -/
theorem secret_resolution_failure_witness :
    ∃ e, secretSpecsFromCompose
      (fun s => if s = "db" then some { content := "hunter2" } else none)
      [{ source := "missing" }] "/wd" (fun _ => none) = .error e :=
  (secret_resolution_failure
      (fun s => if s = "db" then some { content := "hunter2" } else none)
      "/wd" (fun _ => none) [{ source := "missing" }]).1.mpr
    ⟨{ source := "missing" }, by decide, Or.inl (by decide)⟩

/-- C5: on success, a spec resolved from a file-backed definition carries the
file's bytes (replacing the inline content), read from the file path as-is
when absolute and joined to the working directory when relative; a spec from
an inline-only definition carries the inline content. -/
theorem secret_content_resolution (secrets : String → Option SecretConfig)
    (workingDir : String) (fs : FileSystem) (refs : List ServiceSecretConfig)
    (specs : List SecretSpec) (mounts : List SecretMount)
    (h : secretSpecsFromCompose secrets refs workingDir fs = .ok (specs, mounts)) :
    ∀ (i : Nat) (ss : ServiceSecretConfig), refs[i]? = some ss →
      ∃ (spec : SecretSpec) (d : SecretConfig), specs[i]? = some spec ∧
        secrets ss.source = some d ∧
        (d.file ≠ "" → fs (secretFilePath workingDir d.file) = some spec.content) ∧
        (d.file = "" → spec.content = strBytes d.content) ∧
        (isAbs d.file = true → secretFilePath workingDir d.file = d.file) ∧
        (isAbs d.file = false →
          secretFilePath workingDir d.file = filepathJoin workingDir d.file) := by
  intro i ss hss
  have hi : i < refs.length := by
    by_contra hlt
    rw [List.getElem?_eq_none (by omega)] at hss
    cases hss
  obtain ⟨_, _, hidx⟩ := secretSpecsFromCompose_ok secrets workingDir fs refs specs mounts h
  obtain ⟨ss', spec, mount, hss', hspec, hmount, hres⟩ := hidx i hi
  rw [hss] at hss'
  obtain rfl := Option.some.inj hss'
  obtain ⟨d, hd, hext, hname, hinline, hfile, hmsn, hmcp, hmuid, hmgid, hmmode⟩ :=
    resolveServiceSecret_ok secrets workingDir fs ss spec mount hres
  refine ⟨spec, d, hspec, hd, hfile, hinline, ?_, ?_⟩
  · intro ha
    simp [secretFilePath, ha]
  · intro ha
    simp [secretFilePath, ha]

/-- C5 witness. -/
theorem secret_content_resolution_witness :
    ∃ (spec : SecretSpec) (d : SecretConfig),
      ([{ name := "db", content := [115, 51] }] : List SecretSpec)[0]? = some spec ∧
      (fun s => if s = "db" then some { content := "inline", file := "secret.txt" }
        else none : String → Option SecretConfig) "db" = some d ∧
      (d.file ≠ "" →
        (fun p => if p = "/wd/secret.txt" then some [115, 51] else none : FileSystem)
          (secretFilePath "/wd" d.file) = some spec.content) ∧
      (d.file = "" → spec.content = strBytes d.content) ∧
      (isAbs d.file = true → secretFilePath "/wd" d.file = d.file) ∧
      (isAbs d.file = false →
        secretFilePath "/wd" d.file = filepathJoin "/wd" d.file) :=
  secret_content_resolution
    (fun s => if s = "db" then some { content := "inline", file := "secret.txt" } else none)
    "/wd" (fun p => if p = "/wd/secret.txt" then some [115, 51] else none)
    [{ source := "db" }]
    [{ name := "db", content := [115, 51] }]
    [{ secretName := "db", containerPath := "/run/secrets/db" }]
    rfl 0 { source := "db" } rfl

/-- C8: on success, a mount built from a reference with no target path gets
container path `/run/secrets/<source>`; with a target path, the target is used
unchanged. -/
theorem secret_mount_target (secrets : String → Option SecretConfig)
    (workingDir : String) (fs : FileSystem) (refs : List ServiceSecretConfig)
    (specs : List SecretSpec) (mounts : List SecretMount)
    (h : secretSpecsFromCompose secrets refs workingDir fs = .ok (specs, mounts)) :
    ∀ (i : Nat) (ss : ServiceSecretConfig), refs[i]? = some ss →
      ∃ mount : SecretMount, mounts[i]? = some mount ∧
        (ss.target = "" → mount.containerPath = "/run/secrets/" ++ ss.source) ∧
        (ss.target ≠ "" → mount.containerPath = ss.target) := by
  intro i ss hss
  have hi : i < refs.length := by
    by_contra hlt
    rw [List.getElem?_eq_none (by omega)] at hss
    cases hss
  obtain ⟨_, _, hidx⟩ := secretSpecsFromCompose_ok secrets workingDir fs refs specs mounts h
  obtain ⟨ss', spec, mount, hss', hspec, hmount, hres⟩ := hidx i hi
  rw [hss] at hss'
  obtain rfl := Option.some.inj hss'
  obtain ⟨d, hd, hext, hname, hinline, hfile, hmsn, hmcp, hmuid, hmgid, hmmode⟩ :=
    resolveServiceSecret_ok secrets workingDir fs ss spec mount hres
  refine ⟨mount, hmount, ?_, ?_⟩
  · intro ht
    rw [hmcp, if_pos ht]
  · intro ht
    rw [hmcp, if_neg ht]

/-- C8 witness. -/
theorem secret_mount_target_witness :
    ∃ mount : SecretMount,
      ([{ secretName := "db", containerPath := "/run/secrets/db" }] :
        List SecretMount)[0]? = some mount ∧
      (({ source := "db" } : ServiceSecretConfig).target = "" →
        mount.containerPath = "/run/secrets/" ++ ({ source := "db" } : ServiceSecretConfig).source) ∧
      (({ source := "db" } : ServiceSecretConfig).target ≠ "" →
        mount.containerPath = ({ source := "db" } : ServiceSecretConfig).target) :=
  secret_mount_target
    (fun s => if s = "db" then some { content := "hunter2" } else none)
    "/wd" (fun _ => none) [{ source := "db" }]
    [{ name := "db", content := strBytes "hunter2" }]
    [{ secretName := "db", containerPath := "/run/secrets/db" }]
    rfl 0 { source := "db" } rfl

/-- C10: on success, the spec and mount lists are as long as the reference
list, aligned by index with the i-th spec name and mount secret name equal to
the i-th reference's source, and every mount has a non-empty container
path. -/
theorem secret_resolution_alignment (secrets : String → Option SecretConfig)
    (workingDir : String) (fs : FileSystem) (refs : List ServiceSecretConfig)
    (specs : List SecretSpec) (mounts : List SecretMount)
    (h : secretSpecsFromCompose secrets refs workingDir fs = .ok (specs, mounts)) :
    specs.length = refs.length ∧ mounts.length = refs.length ∧
    ∀ (i : Nat) (ss : ServiceSecretConfig), refs[i]? = some ss →
      ∃ (spec : SecretSpec) (mount : SecretMount), specs[i]? = some spec ∧
        mounts[i]? = some mount ∧
        spec.name = ss.source ∧ mount.secretName = ss.source ∧
        mount.containerPath ≠ "" := by
  obtain ⟨hl1, hl2, hidx⟩ := secretSpecsFromCompose_ok secrets workingDir fs refs specs mounts h
  refine ⟨hl1, hl2, ?_⟩
  intro i ss hss
  have hi : i < refs.length := by
    by_contra hlt
    rw [List.getElem?_eq_none (by omega)] at hss
    cases hss
  obtain ⟨ss', spec, mount, hss', hspec, hmount, hres⟩ := hidx i hi
  rw [hss] at hss'
  obtain rfl := Option.some.inj hss'
  obtain ⟨d, hd, hext, hname, hinline, hfile, hmsn, hmcp, hmuid, hmgid, hmmode⟩ :=
    resolveServiceSecret_ok secrets workingDir fs ss spec mount hres
  refine ⟨spec, mount, hspec, hmount, hname, hmsn, ?_⟩
  rw [hmcp]
  split
  · exact runSecretsPrefix_ne_empty _
  · assumption

/-- C10 witness. -/
theorem secret_resolution_alignment_witness :
    ([{ name := "db", content := strBytes "hunter2" }] : List SecretSpec).length =
      ([{ source := "db" }] : List ServiceSecretConfig).length ∧
    ([{ secretName := "db", containerPath := "/run/secrets/db" }] :
      List SecretMount).length = ([{ source := "db" }] : List ServiceSecretConfig).length ∧
    ∀ (i : Nat) (ss : ServiceSecretConfig),
      ([{ source := "db" }] : List ServiceSecretConfig)[i]? = some ss →
      ∃ (spec : SecretSpec) (mount : SecretMount),
        ([{ name := "db", content := strBytes "hunter2" }] : List SecretSpec)[i]? = some spec ∧
        ([{ secretName := "db", containerPath := "/run/secrets/db" }] :
          List SecretMount)[i]? = some mount ∧
        spec.name = ss.source ∧ mount.secretName = ss.source ∧
        mount.containerPath ≠ "" :=
  secret_resolution_alignment
    (fun s => if s = "db" then some { content := "hunter2" } else none)
    "/wd" (fun _ => none) [{ source := "db" }]
    [{ name := "db", content := strBytes "hunter2" }]
    [{ secretName := "db", containerPath := "/run/secrets/db" }]
    rfl

/-! ## Lemmas: cross-validation -/

theorem isError_eq_false_iff {ε α : Type} (x : Except ε α) :
    isError x = false ↔ ∃ u, x = .ok u := by
  cases x <;> simp [isError]

theorem isError_eq_true_iff {ε α : Type} (x : Except ε α) :
    isError x = true ↔ ¬ ∃ u, x = .ok u := by
  cases x <;> simp [isError]

theorem secretMount_validate_ok (m : SecretMount) :
    isError m.Validate = false ↔
      (m.secretName ≠ "" ∧ isError m.GetNumericUid = false ∧
        isError m.GetNumericGid = false ∧
        (m.containerPath ≠ "" → isAbs m.containerPath = true)) := by
  unfold SecretMount.Validate
  by_cases h1 : m.secretName = ""
  · simp [h1, isError]
  · rw [if_neg h1]
    rcases hu : m.GetNumericUid with e | v
    · simp [isError, h1]
    · rcases hg : m.GetNumericGid with e | w
      · simp [isError, h1]
      · by_cases hp : m.containerPath ≠ "" ∧ isAbs m.containerPath = false
        · rw [if_pos hp]
          simp only [isError, Bool.true_eq_false, false_iff, not_and]
          intro _ _ _ himp
          obtain ⟨hne, habs⟩ := hp
          rw [himp hne] at habs
          cases habs
        · rw [if_neg hp]
          simp only [isError, true_iff]
          refine ⟨h1, by simp [isError], by simp [isError], ?_⟩
          intro hne
          by_contra habs
          exact hp ⟨hne, by simpa using habs⟩

theorem validateSpecsAux_ok_iff (specs : List SecretSpec) (seen : List String) :
    (∃ seenOut, validateSpecsAux specs seen = .ok seenOut) ↔
      ((∀ s ∈ specs, s.name ≠ "") ∧ (specs.map SecretSpec.name).Nodup ∧
        ∀ s ∈ specs, s.name ∉ seen) := by
  induction specs generalizing seen with
  | nil => simp [validateSpecsAux]
  | cons sp rest ih =>
    simp only [validateSpecsAux]
    by_cases hname : sp.name = ""
    · simp only [SecretSpec.Validate, if_pos hname]
      apply iff_of_false
      · rintro ⟨so, hso⟩
        exact absurd hso (by simp)
      · rintro ⟨hall, _, _⟩
        exact hall sp (List.mem_cons_self sp rest) hname
    · simp only [SecretSpec.Validate, if_neg hname]
      by_cases hseen : sp.name ∈ seen
      · rw [if_pos hseen]
        apply iff_of_false
        · rintro ⟨so, hso⟩
          exact absurd hso (by simp)
        · rintro ⟨_, _, hnotin⟩
          exact hnotin sp (List.mem_cons_self sp rest) hseen
      · rw [if_neg hseen]
        rw [ih (sp.name :: seen)]
        constructor
        · rintro ⟨hne, hnd, hnotin⟩
          refine ⟨?_, ?_, ?_⟩
          · intro s hs
            rcases List.mem_cons.mp hs with rfl | hs'
            · exact hname
            · exact hne s hs'
          · rw [List.map_cons, List.nodup_cons]
            refine ⟨?_, hnd⟩
            intro hmem
            obtain ⟨s, hs, hsname⟩ := List.mem_map.mp hmem
            exact hnotin s hs (hsname ▸ List.mem_cons_self sp.name seen)
          · intro s hs
            rcases List.mem_cons.mp hs with rfl | hs'
            · exact hseen
            · intro hmem
              exact hnotin s hs' (List.mem_cons_of_mem _ hmem)
        · rintro ⟨hne, hnd, hnotin⟩
          rw [List.map_cons, List.nodup_cons] at hnd
          refine ⟨?_, hnd.2, ?_⟩
          · intro s hs
            exact hne s (List.mem_cons_of_mem sp hs)
          · intro s hs hmem
            rcases List.mem_cons.mp hmem with heq | hmem'
            · exact hnd.1 (heq ▸ List.mem_map_of_mem SecretSpec.name hs)
            · exact hnotin s (List.mem_cons_of_mem sp hs) hmem'

theorem validateSpecsAux_ok_mem (specs : List SecretSpec) (seen seenOut : List String)
    (h : validateSpecsAux specs seen = .ok seenOut) :
    ∀ x, x ∈ seenOut ↔ (x ∈ specs.map SecretSpec.name ∨ x ∈ seen) := by
  induction specs generalizing seen with
  | nil =>
    simp only [validateSpecsAux, Except.ok.injEq] at h
    subst h
    simp
  | cons sp rest ih =>
    simp only [validateSpecsAux] at h
    rcases hv : sp.Validate with e | u
    · rw [hv] at h
      exact absurd h (by simp)
    · rw [hv] at h
      by_cases hseen : sp.name ∈ seen
      · rw [if_pos hseen] at h
        exact absurd h (by simp)
      · rw [if_neg hseen] at h
        intro x
        rw [ih (sp.name :: seen) h x]
        simp only [List.map_cons, List.mem_cons]
        tauto

theorem validateMountsAux_ok_iff (seen : List String) (mounts : List SecretMount) :
    (∃ u, validateMountsAux seen mounts = .ok u) ↔
      ∀ m ∈ mounts, isError m.Validate = false ∧ m.secretName ∈ seen := by
  induction mounts with
  | nil => simp [validateMountsAux]
  | cons mt rest ih =>
    simp only [validateMountsAux]
    rcases hv : mt.Validate with e | u
    · apply iff_of_false
      · rintro ⟨uu, huu⟩
        exact absurd huu (by simp)
      · intro hall
        have := (hall mt (List.mem_cons_self mt rest)).1
        rw [hv] at this
        exact absurd this (by simp [isError])
    · by_cases hmem : mt.secretName ∈ seen
      · rw [if_pos hmem]
        rw [ih]
        constructor
        · intro hall
          intro m hm
          rcases List.mem_cons.mp hm with rfl | hm'
          · exact ⟨by simp [isError, hv], hmem⟩
          · exact hall m hm'
        · intro hall m hm
          exact hall m (List.mem_cons_of_mem mt hm)
      · rw [if_neg hmem]
        apply iff_of_false
        · rintro ⟨uu, huu⟩
          exact absurd huu (by simp)
        · intro hall
          exact hmem (hall mt (List.mem_cons_self mt rest)).2

/-- C7 counterexample: a mount whose Uid is the non-numeric string `"x"`
fails cross-validation although every condition the claim lists holds (spec
names non-empty and distinct, mount source non-empty and defined, container
path unset), so "it succeeds otherwise" is false. -/
theorem validate_claim_counterexample :
    isError (ValidateSecretsAndMounts [{ name := "a" }]
      [{ secretName := "a", uid := "x" }]) = true ∧
    (∀ s ∈ ([{ name := "a" }] : List SecretSpec), s.name ≠ "") ∧
    (([{ name := "a" }] : List SecretSpec).map SecretSpec.name).Nodup ∧
    (∀ m ∈ ([{ secretName := "a", uid := "x" }] : List SecretMount),
      m.secretName ≠ "" ∧
      m.secretName ∈ ([{ name := "a" }] : List SecretSpec).map SecretSpec.name ∧
      m.containerPath = "") := by
  refine ⟨?_, by decide, by decide, by decide⟩
  decide

/-- C7 (amended): cross-validation fails exactly when some spec has an empty
name, or two specs share a name, or some mount's secret name is empty or
absent from the spec set, or some mount's container path is set but not
absolute, or some mount's Uid or Gid is set but fails numeric parsing; it
succeeds otherwise. -/
theorem validateSecretsAndMounts_fails_iff (secrets : List SecretSpec)
    (mounts : List SecretMount) :
    isError (ValidateSecretsAndMounts secrets mounts) = true ↔
      ((∃ s ∈ secrets, s.name = "") ∨
       ¬ (secrets.map SecretSpec.name).Nodup ∨
       ∃ m ∈ mounts,
         (m.secretName = "" ∨
          m.secretName ∉ secrets.map SecretSpec.name ∨
          (m.containerPath ≠ "" ∧ isAbs m.containerPath = false) ∨
          isError m.GetNumericUid = true ∨
          isError m.GetNumericGid = true)) := by
  unfold ValidateSecretsAndMounts
  rcases hs : validateSpecsAux secrets [] with e | seen
  · apply iff_of_true (by simp [isError])
    have hno : ¬ ∃ seenOut, validateSpecsAux secrets [] = .ok seenOut := by
      rintro ⟨so, hso⟩
      rw [hs] at hso
      exact absurd hso (by simp)
    rw [validateSpecsAux_ok_iff] at hno
    push_neg at hno
    by_cases hA : ∀ s ∈ secrets, s.name ≠ ""
    · by_cases hB : (secrets.map SecretSpec.name).Nodup
      · obtain ⟨s, hsm, habs⟩ := hno hA hB
        exact absurd habs (by simp)
      · exact Or.inr (Or.inl hB)
    · push_neg at hA
      obtain ⟨s, hsmem, hsname⟩ := hA
      exact Or.inl ⟨s, hsmem, hsname⟩
  · have hok := (validateSpecsAux_ok_iff secrets []).mp ⟨seen, hs⟩
    obtain ⟨hne, hnd, _⟩ := hok
    have hmem := validateSpecsAux_ok_mem secrets [] seen hs
    constructor
    · intro herr
      rw [isError_eq_true_iff] at herr
      rw [validateMountsAux_ok_iff] at herr
      push_neg at herr
      obtain ⟨m, hm, hbad⟩ := herr
      refine Or.inr (Or.inr ⟨m, hm, ?_⟩)
      by_cases hv : isError m.Validate = false
      · have hnotmem := hbad hv
        refine Or.inr (Or.inl ?_)
        intro hmm
        exact hnotmem ((hmem m.secretName).mpr (Or.inl hmm))
      · have hnotok : ¬ (m.secretName ≠ "" ∧ isError m.GetNumericUid = false ∧
            isError m.GetNumericGid = false ∧
            (m.containerPath ≠ "" → isAbs m.containerPath = true)) := by
          intro hcond
          exact hv ((secretMount_validate_ok m).mpr hcond)
        by_cases hz : m.secretName = ""
        · exact Or.inl hz
        · by_cases huid : isError m.GetNumericUid = false
          · by_cases hgid : isError m.GetNumericGid = false
            · have hpath : ¬ (m.containerPath ≠ "" → isAbs m.containerPath = true) := by
                intro himp
                exact hnotok ⟨hz, huid, hgid, himp⟩
              push_neg at hpath
              exact Or.inr (Or.inr (Or.inl ⟨hpath.1, by simpa using hpath.2⟩))
            · exact Or.inr (Or.inr (Or.inr (Or.inr (by simpa using hgid))))
          · exact Or.inr (Or.inr (Or.inr (Or.inl (by simpa using huid))))
    · intro hcond
      rw [isError_eq_true_iff, validateMountsAux_ok_iff]
      rcases hcond with ⟨s, hsmem, hsname⟩ | hcond
      · exact absurd hsname (hne s hsmem)
      · rcases hcond with hnd' | hcond
        · exact absurd hnd hnd'
        · obtain ⟨m, hm, hbad⟩ := hcond
          intro hall
          obtain ⟨hvok, hsmem⟩ := hall m hm
          rw [secretMount_validate_ok] at hvok
          obtain ⟨h1, h2, h3, h4⟩ := hvok
          rcases hbad with hb | hb | hb | hb | hb
          · exact h1 hb
          · rcases (hmem m.secretName).mp hsmem with hmm | hmm
            · exact hb hmm
            · exact absurd hmm (by simp)
          · rw [h4 hb.1] at hb
            exact absurd hb.2 (by simp)
          · rw [h2] at hb
            exact absurd hb (by simp)
          · rw [h3] at hb
            exact absurd hb (by simp)

/-- C7 witness. -/
theorem validateSecretsAndMounts_fails_iff_witness :
    isError (ValidateSecretsAndMounts [{ name := "a" }, { name := "a" }] []) = true :=
  (validateSecretsAndMounts_fails_iff [{ name := "a" }, { name := "a" }] []).mpr
    (Or.inr (Or.inl (by decide)))

end Uncloud
